import Mathlib

/-!
Shallow embedding of the conversation-memory subsystem of `src/bot.py`
(a Telegram echo bot with a bounded per-user chat history).

The persisted store (the `data/` directory of one JSON file per user id)
is modelled as a function from user ids to optional file contents; a file
can hold a readable record or be corrupt (unparsable JSON).  Handlers are
modelled as functions from a store to a new store together with the list
of observable events they emit (log lines, outbound sends, saves), in
order; a propagated Python exception is `Except.error`.
-/

namespace ViSco

/-- One entry of a chat history: the dict `{"from": ..., "text": ...}`.
The `from` key is spelled `sender` because `from` is a reserved word. -/
structure MessageEntry where
  sender : String
  text : String
deriving DecidableEq, Repr

/-- The per-user chat memory dict `{"username": ..., "messages": [...]}`. -/
structure ChatMemory where
  username : String
  messages : List MessageEntry
deriving DecidableEq, Repr

/-- Contents of a persisted per-user file: a readable JSON record, or a
corrupt file whose parse raises `json.JSONDecodeError`. -/
inductive FileContent where
  | valid (m : ChatMemory) : FileContent
  | corrupt : FileContent
deriving DecidableEq, Repr

/-- The `data/` directory: at each user id, either a file or nothing. -/
abbrev Store := Int → Option FileContent

/-- Observable side effects of a handler, in program order. -/
inductive Event where
  | logWarning : Event
  | logInfo : Event
  | save (uid : Int) (m : ChatMemory) : Event
  | send (text : String) : Event
deriving DecidableEq, Repr

/-- `save_chat_memory`: write the record to `data/{user_id}.json`,
overwriting whatever was there. -/
def save_chat_memory (user_id : Int) (memory : ChatMemory) (store : Store) : Store :=
  fun k => if k = user_id then some (FileContent.valid memory) else store k

/-- `load_chat_memory`: read `data/{user_id}.json`; on `FileNotFoundError`
create a fresh record with empty messages, persist it at once and return
it.  Only `FileNotFoundError` is caught: a corrupt file raises.  The
returned triple is the record, the store after the call, and the save
events the call itself emitted. -/
def load_chat_memory (user_id : Int) (username : String) (store : Store) :
    Except Unit (ChatMemory × Store × List Event) :=
  match store user_id with
  | some (FileContent.valid m) => Except.ok (m, store, [])
  | some FileContent.corrupt => Except.error ()
  | none =>
      let memory : ChatMemory := { username := username, messages := [] }
      Except.ok (memory, save_chat_memory user_id memory store,
        [Event.save user_id memory])

/-- `update_message_history`: append the new message, then keep only the
last 20 entries (`messages[-20:]`) when the length exceeds 20. -/
def update_message_history (messages : List MessageEntry) (new_message : MessageEntry) :
    List MessageEntry :=
  let messages := messages ++ [new_message]
  if messages.length > 20 then messages.drop (messages.length - 20) else messages

/-- `on_message`: reject unauthorized senders with only a warning log;
otherwise load the memory, append the user entry, echo the text as the
reply, send it, append the bot entry and save once. -/
def on_message (allowed : List Int) (user_id : Int) (username : String)
    (text : String) (store : Store) : Except Unit (Store × List Event) :=
  if allowed.contains user_id then
    match load_chat_memory user_id username store with
    | Except.error e => Except.error e
    | Except.ok (memory, store1, ev1) =>
        let m1 : ChatMemory := { memory with
          messages := update_message_history memory.messages
            { sender := "user", text := text } }
        let reply := text
        let m2 : ChatMemory := { m1 with
          messages := update_message_history m1.messages
            { sender := "bot", text := reply } }
        Except.ok (save_chat_memory user_id m2 store1,
          ev1 ++ [Event.send reply, Event.save user_id m2])
  else
    Except.ok (store, [Event.logWarning])

/-- `data_file.unlink()`: remove the file for one user id. -/
def unlink (user_id : Int) (store : Store) : Store :=
  fun k => if k = user_id then none else store k

/-- `clear_data`: reject unauthorized senders with only a warning log;
otherwise delete the file if it exists and confirm, or report that no
history was found. -/
def clear_data (allowed : List Int) (user_id : Int) (store : Store) :
    Store × List Event :=
  if allowed.contains user_id then
    match store user_id with
    | some _ =>
        (unlink user_id store,
         [Event.logInfo, Event.send "Your chat history has been cleared."])
    | none => (store, [Event.send "No chat history found."])
  else
    (store, [Event.logWarning])

/-- Iterated `update_message_history` over a list of new messages. -/
def appendAll (msgs : List MessageEntry) (news : List MessageEntry) :
    List MessageEntry :=
  news.foldl update_message_history msgs

/-- Memory after the two appends `on_message` performs: the user entry,
then the bot entry carrying the echoed reply. -/
def afterBothAppends (m : ChatMemory) (text : String) : ChatMemory :=
  { m with
    messages :=
      update_message_history
        (update_message_history m.messages { sender := "user", text := text })
        { sender := "bot", text := text } }

/-- Concrete store with a readable record for user 42 and nothing else. -/
def store42 : Store :=
  fun k => if k = 42 then some (FileContent.valid ⟨"alice", []⟩) else none

/-- Concrete store with a corrupt file for user 7 and nothing else. -/
def corruptStore : Store :=
  fun k => if k = 7 then some FileContent.corrupt else none

theorem update_message_history_length_le (msgs : List MessageEntry)
    (e : MessageEntry) : (update_message_history msgs e).length ≤ 20 := by
  unfold update_message_history
  by_cases h : (msgs ++ [e]).length > 20
  · simp only [h, if_true, List.length_drop]
    omega
  · simp only [h, if_false]
    omega

theorem appendAll_length_le (news : List MessageEntry) :
    ∀ msgs : List MessageEntry, msgs.length ≤ 20 →
    (appendAll msgs news).length ≤ 20 := by
  induction news with
  | nil => intro msgs h; simpa [appendAll] using h
  | cons e rest ih =>
      intro msgs _
      have : appendAll msgs (e :: rest) = appendAll (update_message_history msgs e) rest := rfl
      rw [this]
      exact ih _ (update_message_history_length_le msgs e)

theorem update_message_history_eq (msgs : List MessageEntry) (e : MessageEntry)
    (h : msgs.length ≤ 20) :
    update_message_history msgs e =
      (msgs ++ [e]).drop ((msgs ++ [e]).length - 20) := by
  unfold update_message_history
  by_cases hgt : (msgs ++ [e]).length > 20
  · simp only [hgt, if_true]
  · simp only [hgt, if_false]
    have : (msgs ++ [e]).length - 20 = 0 := by
      simp only [List.length_append, List.length_singleton] at *
      omega
    rw [this, List.drop_zero]

theorem appendAll_drop (news : List MessageEntry) :
    ∀ msgs : List MessageEntry, msgs.length ≤ 20 →
    appendAll msgs news = (msgs ++ news).drop (msgs.length + news.length - 20) := by
  induction news with
  | nil =>
      intro msgs h
      have h0 : msgs.length + ([] : List MessageEntry).length - 20 = 0 := by
        simp only [List.length_nil]; omega
      rw [h0]
      simp [appendAll]
  | cons e rest ih =>
      intro msgs h
      have hstep : appendAll msgs (e :: rest) =
          appendAll (update_message_history msgs e) rest := rfl
      rw [hstep, ih _ (update_message_history_length_le msgs e)]
      by_cases hlt : msgs.length < 20
      · have hno : ¬ (msgs ++ [e]).length > 20 := by
          simp only [List.length_append, List.length_cons, List.length_nil]; omega
        have hm : update_message_history msgs e = msgs ++ [e] := by
          unfold update_message_history
          simp only [hno, if_false]
        rw [hm]
        have h1 : (msgs ++ [e]) ++ rest = msgs ++ e :: rest := by
          rw [List.append_assoc, List.singleton_append]
        have h2 : (msgs ++ [e]).length + rest.length - 20 =
            msgs.length + (e :: rest).length - 20 := by
          simp only [List.length_append, List.length_cons, List.length_nil]
          omega
        rw [h1, h2]
      · have h20 : msgs.length = 20 := by omega
        have hgt : (msgs ++ [e]).length > 20 := by
          simp only [List.length_append, List.length_cons, List.length_nil]; omega
        have hm : update_message_history msgs e = msgs.drop 1 ++ [e] := by
          unfold update_message_history
          simp only [hgt, if_true]
          have hd : (msgs ++ [e]).length - 20 = 1 := by
            simp only [List.length_append, List.length_cons, List.length_nil]; omega
          have hd1 : (msgs ++ [e]).drop 1 = msgs.drop 1 ++ [e] :=
            List.drop_append_of_le_length (by omega)
          rw [hd, hd1]
        rw [hm]
        have hlen : (msgs.drop 1 ++ [e]).length = 20 := by
          simp only [List.length_append, List.length_cons, List.length_nil,
            List.length_drop]
          omega
        have hL : (msgs.drop 1 ++ [e]).length + rest.length - 20 = rest.length := by
          rw [hlen]; omega
        have hR : msgs.length + (e :: rest).length - 20 = rest.length + 1 := by
          simp only [List.length_cons]; omega
        rw [hL, hR]
        have hassoc : (msgs.drop 1 ++ [e]) ++ rest = msgs.drop 1 ++ e :: rest := by
          rw [List.append_assoc, List.singleton_append]
        have hsplit : (msgs ++ e :: rest).drop (rest.length + 1) =
            ((msgs ++ e :: rest).drop 1).drop rest.length := by
          rw [List.drop_drop, Nat.add_comm]
        have hdrop1 : (msgs ++ e :: rest).drop 1 = msgs.drop 1 ++ e :: rest :=
          List.drop_append_of_le_length (by omega)
        rw [hassoc, hsplit, hdrop1]

/-- C1: for every starting history and every sequence of appends through
`update_message_history`, after each append the history length is at most
20; starting from an empty history the retained entries are exactly the
last `min(N,20)` appended entries, in their original relative order. -/
theorem history_bound_and_fifo :
    (∀ (start news : List MessageEntry) (i : Nat), i < news.length →
      (appendAll start (news.take (i + 1))).length ≤ 20) ∧
    (∀ news : List MessageEntry,
      appendAll [] news = news.drop (news.length - 20)) := by
  constructor
  · intro start news i hi
    cases news with
    | nil => simp at hi
    | cons e rest =>
        have h1 : (e :: rest).take (i + 1) = e :: rest.take i := rfl
        have h2 : appendAll start (e :: rest.take i) =
            appendAll (update_message_history start e) (rest.take i) := rfl
        rw [h1, h2]
        exact appendAll_length_le _ _ (update_message_history_length_le start e)
  · intro news
    have h := appendAll_drop news [] (by simp)
    simpa using h

/-- C1 witness: the bound theorem applied at a concrete input. -/
theorem history_bound_and_fifo_wit :
    (appendAll [⟨"user", "a"⟩]
      (List.take (0 + 1) [MessageEntry.mk "bot" "b"])).length ≤ 20 :=
  history_bound_and_fifo.1 [⟨"user", "a"⟩] [⟨"bot", "b"⟩] 0 (by decide)

/-- C2 counterexample: for an authorized message on an existing record,
the event trace of `on_message` opens with the outbound send and holds a
single save, which follows the send; no save of the user entry precedes
the send, so the handler does not perform two sequential saves with the
first one before the send. -/
theorem two_saves_before_send_cex :
    (on_message [42] 42 "alice" "hi" store42).map Prod.snd =
      Except.ok [Event.send "hi",
        Event.save 42 ⟨"alice", [⟨"user", "hi"⟩, ⟨"bot", "hi"⟩]⟩] ∧
    (on_message [42] 42 "alice" "hi" store42).map (fun p => p.2.head?) =
      Except.ok (some (Event.send "hi")) := by
  exact ⟨rfl, rfl⟩

/-- C2 amended: for an authorized message, `on_message` performs a single
save of the conversation, holding both the user entry and the bot reply,
and this save occurs after the outbound send; for a never-seen identity an
additional save of the fresh empty record occurs before the send, but no
save holding the user entry precedes the send. -/
theorem single_save_after_send (allowed : List Int) (uid : Int)
    (u text : String) (store : Store) (m : ChatMemory)
    (hmem : allowed.contains uid = true) :
    (store uid = some (FileContent.valid m) →
      on_message allowed uid u text store =
        Except.ok (save_chat_memory uid (afterBothAppends m text) store,
          [Event.send text, Event.save uid (afterBothAppends m text)])) ∧
    (store uid = none →
      on_message allowed uid u text store =
        Except.ok (save_chat_memory uid (afterBothAppends ⟨u, []⟩ text)
            (save_chat_memory uid ⟨u, []⟩ store),
          [Event.save uid ⟨u, []⟩, Event.send text,
           Event.save uid (afterBothAppends ⟨u, []⟩ text)])) := by
  have hm : uid ∈ allowed := by simpa using hmem
  constructor
  · intro hv
    simp [on_message, hmem, load_chat_memory, hv, afterBothAppends, hm]
  · intro hn
    simp [on_message, hmem, load_chat_memory, hn, afterBothAppends, hm]

/-- C2 witness: the amended theorem applied at a concrete input. -/
theorem single_save_after_send_wit :
    on_message [42] 42 "alice" "hi" store42 =
      Except.ok (save_chat_memory 42 (afterBothAppends ⟨"alice", []⟩ "hi") store42,
        [Event.send "hi", Event.save 42 (afterBothAppends ⟨"alice", []⟩ "hi")]) :=
  (single_save_after_send [42] 42 "alice" "hi" store42 ⟨"alice", []⟩
    (by decide)).1 (by decide)

/-- C3 counterexample: a corrupt persisted record is not treated as
missing; `load_chat_memory` raises on it and `on_message` propagates the
exception instead of recreating a fresh record. -/
theorem corrupt_recreate_cex :
    load_chat_memory 7 "bob" corruptStore = Except.error () ∧
    on_message [7] 7 "bob" "x" corruptStore = Except.error () := by
  exact ⟨rfl, rfl⟩

/-- C3 amended: only an absent record is treated as not found and
recreated as a fresh empty record; a corrupt record makes
`load_chat_memory` raise the decode error and `on_message` propagate it,
crashing the handling of that message. -/
theorem corrupt_raises_absent_recreates (uid : Int) (u : String)
    (store : Store) :
    (store uid = some FileContent.corrupt →
      load_chat_memory uid u store = Except.error () ∧
      ∀ (allowed : List Int) (text : String), allowed.contains uid = true →
        on_message allowed uid u text store = Except.error ()) ∧
    (store uid = none →
      load_chat_memory uid u store =
        Except.ok (⟨u, []⟩, save_chat_memory uid ⟨u, []⟩ store,
          [Event.save uid ⟨u, []⟩])) := by
  constructor
  · intro hc
    constructor
    · simp [load_chat_memory, hc]
    · intro allowed text hmem
      have hm : uid ∈ allowed := by simpa using hmem
      simp [on_message, hmem, load_chat_memory, hc, hm]
  · intro hn
    simp [load_chat_memory, hn]

/-- C3 witness: the amended theorem applied at concrete inputs. -/
theorem corrupt_raises_absent_recreates_wit :
    load_chat_memory 7 "bob" corruptStore = Except.error () ∧
    load_chat_memory 3 "carol" (fun _ => none) =
      Except.ok (⟨"carol", []⟩,
        save_chat_memory 3 ⟨"carol", []⟩ (fun _ => none),
        [Event.save 3 ⟨"carol", []⟩]) :=
  ⟨((corrupt_raises_absent_recreates 7 "bob" corruptStore).1 (by decide)).1,
   (corrupt_raises_absent_recreates 3 "carol" (fun _ => none)).2 rfl⟩

/-- C4: `load_chat_memory` returns an existing readable record unchanged;
otherwise it builds a record with empty history and the given display-name
hint, persists it immediately and returns it, and a subsequent load with a
different hint still returns the stored display name. -/
theorem load_or_create_spec (uid : Int) (u : String) (store : Store)
    (m : ChatMemory) :
    (store uid = some (FileContent.valid m) →
      load_chat_memory uid u store = Except.ok (m, store, [])) ∧
    (store uid = none →
      load_chat_memory uid u store =
        Except.ok (⟨u, []⟩, save_chat_memory uid ⟨u, []⟩ store,
          [Event.save uid ⟨u, []⟩]) ∧
      ∀ u2 : String,
        load_chat_memory uid u2 (save_chat_memory uid ⟨u, []⟩ store) =
          Except.ok (⟨u, []⟩, save_chat_memory uid ⟨u, []⟩ store, [])) := by
  constructor
  · intro hv
    simp [load_chat_memory, hv]
  · intro hn
    constructor
    · simp [load_chat_memory, hn]
    · intro u2
      simp [load_chat_memory, save_chat_memory]

/-- C4 witness: the theorem applied at a concrete input. -/
theorem load_or_create_spec_wit :
    load_chat_memory 3 "carol" (fun _ => none) =
      Except.ok (⟨"carol", []⟩,
        save_chat_memory 3 ⟨"carol", []⟩ (fun _ => none),
        [Event.save 3 ⟨"carol", []⟩]) ∧
    load_chat_memory 3 "dave" (save_chat_memory 3 ⟨"carol", []⟩ (fun _ => none)) =
      Except.ok (⟨"carol", []⟩,
        save_chat_memory 3 ⟨"carol", []⟩ (fun _ => none), []) :=
  ⟨((load_or_create_spec 3 "carol" (fun _ => none) ⟨"carol", []⟩).2 rfl).1,
   ((load_or_create_spec 3 "carol" (fun _ => none) ⟨"carol", []⟩).2 rfl).2 "dave"⟩

/-- C5: an identity absent from the allow list makes both handlers return
with the store untouched and only a warning log: no load, no save, no
delete, no outbound send, and no exception. -/
theorem unauthorized_no_effect (allowed : List Int) (uid : Int)
    (u text : String) (store : Store) (h : allowed.contains uid = false) :
    on_message allowed uid u text store =
      Except.ok (store, [Event.logWarning]) ∧
    clear_data allowed uid store = (store, [Event.logWarning]) := by
  have hm : uid ∉ allowed := by simpa using h
  constructor
  · simp [on_message, h, hm]
  · simp [clear_data, h, hm]

/-- C5 witness: the theorem applied at a concrete input. -/
theorem unauthorized_no_effect_wit :
    on_message [42] 5 "eve" "hi" store42 =
      Except.ok (store42, [Event.logWarning]) ∧
    clear_data [42] 5 store42 = (store42, [Event.logWarning]) :=
  unauthorized_no_effect [42] 5 "eve" "hi" store42 (by decide)

/-- C6: for an authorized identity with a persisted record, one clear
deletes the record and reports it cleared, and an immediately following
clear reports that no history was found; clearing an identity with no
record is not an error and reports that no history was found. -/
theorem clear_idempotent (allowed : List Int) (uid : Int) (store : Store)
    (hmem : allowed.contains uid = true) :
    (∀ c : FileContent, store uid = some c →
      clear_data allowed uid store =
        (unlink uid store,
         [Event.logInfo, Event.send "Your chat history has been cleared."]) ∧
      clear_data allowed uid (unlink uid store) =
        (unlink uid store, [Event.send "No chat history found."])) ∧
    (store uid = none →
      clear_data allowed uid store =
        (store, [Event.send "No chat history found."])) := by
  have hm : uid ∈ allowed := by simpa using hmem
  constructor
  · intro c hc
    constructor
    · simp [clear_data, hmem, hc, hm]
    · simp [clear_data, hmem, hm, unlink]
  · intro hn
    simp [clear_data, hmem, hn, hm]

/-- C6 witness: the theorem applied at a concrete input. -/
theorem clear_idempotent_wit :
    clear_data [42] 42 store42 =
      (unlink 42 store42,
       [Event.logInfo, Event.send "Your chat history has been cleared."]) ∧
    clear_data [42] 42 (unlink 42 store42) =
      (unlink 42 store42, [Event.send "No chat history found."]) :=
  (clear_idempotent [42] 42 store42 (by decide)).1
    (FileContent.valid ⟨"alice", []⟩) (by decide)

/-- C7: calling `load_chat_memory` twice in succession with the same
identity and hint and no intervening mutation returns the same record,
and the second call changes nothing and emits no event. -/
theorem load_idempotent (uid : Int) (u : String) (store : Store)
    (m1 : ChatMemory) (s1 : Store) (ev : List Event)
    (h : load_chat_memory uid u store = Except.ok (m1, s1, ev)) :
    load_chat_memory uid u s1 = Except.ok (m1, s1, []) := by
  cases hc : store uid with
  | none =>
      simp [load_chat_memory, hc] at h
      obtain ⟨hm, hs, hev⟩ := h
      subst hm hs
      simp [load_chat_memory, save_chat_memory]
  | some c =>
      cases c with
      | valid m =>
          simp [load_chat_memory, hc] at h
          obtain ⟨hm, hs, hev⟩ := h
          subst hm hs
          simp [load_chat_memory, hc]
      | corrupt =>
          simp [load_chat_memory, hc] at h

/-- C7 witness: the theorem applied at a concrete input. -/
theorem load_idempotent_wit :
    load_chat_memory 42 "alice" store42 =
      Except.ok (⟨"alice", []⟩, store42, []) :=
  load_idempotent 42 "alice" store42 ⟨"alice", []⟩ store42 [] rfl

/-- C8: every outbound send of a successful `on_message` run carries
exactly the inbound text (echo), and handling a first message "hello"
from a fresh authorized identity leaves a persisted record whose messages
are exactly the user entry then the bot entry, both with text "hello". -/
theorem echo_reply (allowed : List Int) (uid : Int) (u text : String)
    (store : Store) (s : Store) (evs : List Event)
    (h : on_message allowed uid u text store = Except.ok (s, evs)) :
    (∀ t : String, Event.send t ∈ evs → t = text) ∧
    (on_message [42] 42 "alice" "hello" (fun _ => none)).map (fun p => p.1 42) =
      Except.ok (some (FileContent.valid
        ⟨"alice", [⟨"user", "hello"⟩, ⟨"bot", "hello"⟩]⟩)) := by
  refine ⟨?_, rfl⟩
  intro t ht
  by_cases hmem : uid ∈ allowed
  · have hb : allowed.contains uid = true := by simpa using hmem
    cases hc : store uid with
    | none =>
        simp [on_message, hb, hmem, load_chat_memory, hc] at h
        obtain ⟨hs, hev⟩ := h
        subst hev
        simp at ht
        exact ht
    | some c =>
        cases c with
        | valid m =>
            simp [on_message, hb, hmem, load_chat_memory, hc] at h
            obtain ⟨hs, hev⟩ := h
            subst hev
            simp at ht
            exact ht
        | corrupt =>
            simp [on_message, hb, hmem, load_chat_memory, hc] at h
  · have hb : allowed.contains uid = false := by simpa using hmem
    simp [on_message, hb, hmem] at h
    obtain ⟨hs, hev⟩ := h
    subst hev
    simp at ht

/-- C8 witness: the theorem applied at a concrete input, extracting the
echoed text of the one send in the trace. -/
theorem echo_reply_wit : ("hi" : String) = "hi" :=
  (echo_reply [42] 42 "alice" "hi" store42
      (save_chat_memory 42 ⟨"alice", [⟨"user", "hi"⟩, ⟨"bot", "hi"⟩]⟩ store42)
      [Event.send "hi",
       Event.save 42 ⟨"alice", [⟨"user", "hi"⟩, ⟨"bot", "hi"⟩]⟩]
      rfl).1 "hi" (by decide)

/-- C10: a store operation keyed by one identity leaves every other
identity untouched: `save_chat_memory`, `unlink`, the store returned by
`load_chat_memory`, and the store returned by `clear_data` all agree with
the input store at every other key. -/
theorem per_identity_frame (uid k : Int) (store : Store) (hk : k ≠ uid) :
    (∀ m : ChatMemory, save_chat_memory uid m store k = store k) ∧
    unlink uid store k = store k ∧
    (∀ (u : String) (m1 : ChatMemory) (s1 : Store) (ev : List Event),
      load_chat_memory uid u store = Except.ok (m1, s1, ev) →
      s1 k = store k) ∧
    (∀ allowed : List Int, (clear_data allowed uid store).1 k = store k) := by
  refine ⟨?_, ?_, ?_, ?_⟩
  · intro m
    simp [save_chat_memory, hk]
  · simp [unlink, hk]
  · intro u m1 s1 ev h
    cases hc : store uid with
    | none =>
        simp [load_chat_memory, hc] at h
        obtain ⟨hm, hs, hev⟩ := h
        subst hs
        simp [save_chat_memory, hk]
    | some c =>
        cases c with
        | valid m =>
            simp [load_chat_memory, hc] at h
            obtain ⟨hm, hs, hev⟩ := h
            subst hs
            rfl
        | corrupt =>
            simp [load_chat_memory, hc] at h
  · intro allowed
    by_cases hmem : uid ∈ allowed
    · have hb : allowed.contains uid = true := by simpa using hmem
      cases hc : store uid with
      | none => simp [clear_data, hb, hc, hmem]
      | some c => simp [clear_data, hb, hc, hmem, unlink, hk]
    · have hb : allowed.contains uid = false := by simpa using hmem
      simp [clear_data, hb, hmem]

/-- C10 witness: the theorem applied at a concrete input. -/
theorem per_identity_frame_wit :
    save_chat_memory 42 ⟨"alice", []⟩ store42 7 = store42 7 ∧
    unlink 42 store42 7 = store42 7 :=
  ⟨(per_identity_frame 42 7 store42 (by decide)).1 ⟨"alice", []⟩,
   (per_identity_frame 42 7 store42 (by decide)).2.1⟩

end ViSco
